import Mathlib

/-!
Shallow embedding of the validation core of the `git-workflows-sample`
repository: the Conventional-Commits commit-message validator
(`src/commands/commit.ts`), the branch-name validator (`branch.ts`), and the
integration-branch decision logic (`utils/git.ts`-style helpers), together
with theorems settling the specification claims.

Strings are modelled as Lean `String` / `List Char`; JavaScript's
`String.prototype.length` counts UTF-16 code units, which coincides with the
codepoint count used here on all ASCII inputs (every literal the validators
compare against is ASCII).  JavaScript's `trim` removes Unicode whitespace;
Lean's `String.trim` removes ASCII whitespace, which coincides on ASCII
inputs.
-/

namespace GitWorkflows

/-! ## Data model (`CommitMessageValidation`, branch result) -/

/-- Result type of `validateCommitMessage` (commit.ts lines 4-8). -/
structure CommitMessageValidation where
  valid : Bool
  errors : List String
  warnings : List String
deriving Repr, DecidableEq

/-- Result type of `validateBranchName` (branch.ts line 13):
`{ valid: boolean; error?: string }`. -/
structure BranchValidationResult where
  valid : Bool
  error : Option String
deriving Repr, DecidableEq

/-! ## JavaScript string-primitive models -/

/-- JS `\w` character class (ASCII word characters). -/
def isWordChar (c : Char) : Bool :=
  c.isAlpha || c.isDigit || c = '_'

/-- JS `\s` character class, restricted to the characters that can occur in
practice (ASCII whitespace plus NBSP). -/
def isJsSpace (c : Char) : Bool :=
  c = ' ' || c = '\t' || c = '\n' || c = '\r' ||
  c = '\x0b' || c = '\x0c' || c = ' '

/-- JS line terminators: `.` (without the `s` flag) matches any character
except these. -/
def isLineTerm (c : Char) : Bool :=
  c = '\n' || c = '\r' || c = ' ' || c = ' '

/-- JS `s.trim()` on the character list: strip whitespace (including line
terminators) from both ends. -/
def trimChars (l : List Char) : List Char :=
  ((l.dropWhile isJsSpace).reverse.dropWhile isJsSpace).reverse

/-- JS `message.split('\n')` on the character list: splits at every newline.
Always returns at least one (possibly empty) line. -/
def splitLines : List Char → List (List Char)
  | [] => [[]]
  | c :: rest =>
    if c = '\n' then [] :: splitLines rest
    else
      match splitLines rest with
      | [] => [[c]]
      | l :: ls => (c :: l) :: ls

/-- JS `lines.join('\n')` on character lists. -/
def joinLines : List (List Char) → List Char
  | [] => []
  | [l] => l
  | l :: ls => l ++ '\n' :: joinLines ls

/-! ## The conventional-commit header regex

`/^(\w+)(\([^)]+\))?(!)?:\s+(.+)$/` (commit.ts line 34).  The regex is
deterministic: the greedy `\w+` run is forced (shortening it would leave a
word character where `(`, `!` or `:` is required), the optional scope and
`!` groups are forced by the next character, and `[^)]+` cannot cross the
first `)`.  The only live backtracking is between `\s+` and `(.+)`: the
greedy `\s+` takes the maximal whitespace run and gives back (at most) its
final character when `(.+)` would otherwise be empty. -/

/-- Consume an optional scope group `(\([^)]+\))?` at the front of `r`;
`none` when the group cannot match here (the caller then proceeds without a
scope, exactly as the regex engine falls back to the empty alternative). -/
def afterScope (r : List Char) : Option (List Char) :=
  match r with
  | '(' :: s =>
    let inner := s.takeWhile (fun c => c ≠ ')')
    match s.dropWhile (fun c => c ≠ ')') with
    | ')' :: t => if inner.isEmpty then none else some t
    | _ => none
  | _ => none

/-- Match `\s+(.+)$` against the text after the colon, returning the subject
capture.  `\s+` greedily takes the maximal whitespace run `w`; if nothing
follows, backtracking hands the final whitespace character to `(.+)`
(provided `w` keeps at least one character and that final character is not a
line terminator). -/
def matchTail (t : List Char) : Option (List Char) :=
  let w := t.takeWhile isJsSpace
  let r := t.dropWhile isJsSpace
  if w.isEmpty then none
  else if r.isEmpty then
    match w with
    | _ :: _ :: _ =>
      match w.getLast? with
      | some c => if isLineTerm c then none else some [c]
      | none => none
    | _ => none
  else if r.all (fun c => !isLineTerm c) then some r else none

/-- Match the full header pattern `/^(\w+)(\([^)]+\))?(!)?:\s+(.+)$/`,
returning the `type` and `subject` captures (the only two the validator
reads). -/
def parseHeader (h : List Char) : Option (List Char × List Char) :=
  let ty := h.takeWhile isWordChar
  let r1 := h.dropWhile isWordChar
  if ty.isEmpty then none
  else
    let r2 := (afterScope r1).getD r1
    let r3 := match r2 with
      | '!' :: t => t
      | _ => r2
    match r3 with
    | ':' :: t => (matchTail t).map (fun subj => (ty, subj))
    | _ => none

/-! ## `validateCommitMessage` (commit.ts lines 14-83) -/

/-- Allow-list of conventional commit types (commit.ts lines 47-50). -/
def validTypes : List String :=
  ["feat", "fix", "docs", "style", "refactor",
   "test", "chore", "perf", "ci", "build", "revert"]

/-- The alternatives of the imperative-mood regex
`/^(add|update|fix|remove|create|delete|implement|refactor|improve|change)/i`
(commit.ts line 67). -/
def imperativeVerbs : List String :=
  ["add", "update", "fix", "remove", "create",
   "delete", "implement", "refactor", "improve", "change"]

/-- `imperativePattern.test(subject)`: case-insensitive prefix test against
the verb alternation. -/
def imperativeTest (subject : List Char) : Bool :=
  imperativeVerbs.any (fun v => v.data.isPrefixOf (subject.map Char.toLower))

def emptyMessageError : String := "Commit message cannot be empty"

def headerLengthWarning (n : Nat) : String :=
  "Header should be 50 characters or less (currently " ++ toString n ++ ")"

def formatError : String :=
  "Commit message does not follow Conventional Commits format.\n" ++
  "Expected: <type>(<scope>): <subject>\n" ++
  "Example: feat(auth): add login functionality"

def typeWarning (ty : String) : String :=
  "Type \"" ++ ty ++ "\" is not a standard conventional commit type.\n" ++
  "Common types: " ++ String.intercalate ", " validTypes

def emptySubjectError : String := "Subject cannot be empty"

def subjectLengthWarning : String :=
  "Subject should be concise (50 characters or less)"

def imperativeWarning : String :=
  "Subject should use imperative mood (e.g., \"add\" not \"added\")"

def bodyLengthWarning : String :=
  "Body should be concise (1000 characters or less)"

/-- `lines[0]` of `message.trim().split('\n')`. -/
def headerOf (message : String) : List Char :=
  (splitLines (trimChars message.data)).headD []

/-- `lines.slice(1).join('\n')` of `message.trim().split('\n')`. -/
def bodyOf (message : String) : List Char :=
  joinLines ((splitLines (trimChars message.data)).drop 1)

/-- The header-length warning clause (commit.ts lines 29-31). -/
def headerLengthCheck (header : List Char) : List String :=
  if header.length > 72 then [headerLengthWarning header.length] else []

/-- The body-length warning clause (commit.ts lines 74-76):
`if (body.length > 0 && body.length > 1000)`. -/
def bodyLengthCheck (body : List Char) : List String :=
  if body.length > 0 ∧ body.length > 1000 then [bodyLengthWarning] else []

/-- Commit.ts lines 23-82 (everything after the emptiness early return),
with the pushes onto `errors` / `warnings` rendered as list appends in
source order. -/
def validateHeaderBody (header body : List Char) : CommitMessageValidation :=
  match parseHeader header with
  | none =>
    { valid := ([formatError] : List String).isEmpty,
      errors := [formatError],
      warnings := headerLengthCheck header ++ bodyLengthCheck body }
  | some (ty, subject) =>
    let typeWarnings :=
      if validTypes.contains (String.mk ty) then []
      else [typeWarning (String.mk ty)]
    let subjectErrors :=
      if subject.length = 0 then [emptySubjectError] else []
    let subjectWarnings :=
      if subject.length = 0 then []
      else if subject.length > 50 then [subjectLengthWarning] else []
    let impWarnings :=
      if imperativeTest subject then [] else [imperativeWarning]
    { valid := subjectErrors.isEmpty,
      errors := subjectErrors,
      warnings :=
        headerLengthCheck header ++ typeWarnings ++ subjectWarnings ++
        impWarnings ++ bodyLengthCheck body }

/-- `validateCommitMessage` (commit.ts lines 14-83), translated clause by
clause. -/
def validateCommitMessage (message : String) : CommitMessageValidation :=
  if (trimChars message.data).length = 0 then
    { valid := false, errors := [emptyMessageError], warnings := [] }
  else
    validateHeaderBody (headerOf message) (bodyOf message)

/-! ## `validateBranchName` (branch.ts lines 13-34) -/

/-- Characters allowed by the slug class `[a-z0-9-]`. -/
def isSlugChar (c : Char) : Bool :=
  ('a' ≤ c && c ≤ 'z') || ('0' ≤ c && c ≤ '9') || c = '-'

/-- Match a pattern of the shape `^<pfx>[a-z0-9-]+$` against `name`. -/
def matchSlugPattern (pfx name : List Char) : Bool :=
  pfx.isPrefixOf name &&
  !(name.drop pfx.length).isEmpty &&
  (name.drop pfx.length).all isSlugChar

def branchNameError (name : String) : String :=
  "Branch name \"" ++ name ++ "\" does not follow convention.\n" ++
  "Valid formats: feature/name, bugfix/name, hotfix/name, release/name"

/-- `patterns.some(pattern => pattern.test(name))` over the six patterns of
branch.ts lines 14-21. -/
def branchPatternsMatch (name : String) : Bool :=
  matchSlugPattern "feature/".data name.data ||
  matchSlugPattern "bugfix/".data name.data ||
  matchSlugPattern "hotfix/".data name.data ||
  matchSlugPattern "release/".data name.data ||
  name == "main" ||
  name == "develop"

/-- `validateBranchName` (branch.ts lines 13-34). -/
def validateBranchName (name : String) : BranchValidationResult :=
  if branchPatternsMatch name then
    { valid := true, error := none }
  else
    { valid := false, error := some (branchNameError name) }

/-! ## Integration-branch detection (git utility module)

`detectDefaultBranch` / `getIntegrationBranch` shell out to git; following
the spec's instruction they are modelled as pure decision functions over the
externally supplied query results. -/

/-- The externally supplied Git-query results.  `none` models a failing
subprocess call (a thrown exception caught by the surrounding `try`). -/
structure GitQueries where
  /-- Raw stdout of `git branch -r` (after a successful `git fetch origin`);
  `none` when the fetch or listing failed. -/
  remoteBranches : Option String
  /-- Raw stdout of `git symbolic-ref refs/remotes/origin/HEAD`; `none` when
  the command failed. -/
  symbolicRef : Option String
deriving Repr, DecidableEq

/-- JS `hay.includes(needle)`: substring containment. -/
def strIncludes (hay needle : List Char) : Bool :=
  match hay with
  | [] => needle.isEmpty
  | _ :: rest => needle.isPrefixOf hay || strIncludes rest needle

/-- JS `s.replace(pat, rep)` with string arguments: replace the first
occurrence of `pat` (the original string when `pat` does not occur). -/
def replaceFirst (s pat rep : List Char) : List Char :=
  match s with
  | [] => if pat.isEmpty then rep else []
  | c :: rest =>
    if pat.isPrefixOf (c :: rest) then rep ++ (c :: rest).drop pat.length
    else c :: replaceFirst rest pat rep

/-- The probing second half of `detectDefaultBranch`: check `origin/main`,
then `origin/master`, then `origin/develop` in the `git branch -r` output,
defaulting to `main`. -/
def probeRemoteBranches (q : GitQueries) : String :=
  match q.remoteBranches with
  | some branches =>
    if strIncludes branches.data "origin/main".data then "main"
    else if strIncludes branches.data "origin/master".data then "master"
    else if strIncludes branches.data "origin/develop".data then "develop"
    else "main"
  | none => "main"

/-- `detectDefaultBranch`: prefer the symbolic `origin/HEAD` target (when
the command succeeded and its trimmed output is truthy, i.e. non-empty),
stripping the `refs/remotes/origin/` prefix via `String.replace`; otherwise
probe the remote branch listing. -/
def detectDefaultBranch (q : GitQueries) : String :=
  match q.symbolicRef with
  | some out =>
    let symbolicRef := trimChars out.data
    if symbolicRef.length ≠ 0 then
      String.mk (replaceFirst symbolicRef "refs/remotes/origin/".data [])
    else probeRemoteBranches q
  | none => probeRemoteBranches q

/-- `getIntegrationBranch`: `develop` when `origin/develop` appears in the
remote listing, otherwise fall back to `detectDefaultBranch`; a failing
listing also falls back to `detectDefaultBranch`. -/
def getIntegrationBranch (q : GitQueries) : String :=
  match q.remoteBranches with
  | some branches =>
    if strIncludes branches.data "origin/develop".data then "develop"
    else detectDefaultBranch q
  | none => detectDefaultBranch q

/-! ### Spec-side rendering of the integration-branch contract (for C5) -/

/-- Spec side: does `origin/develop` exist on the remote? -/
def developOnRemote (q : GitQueries) : Bool :=
  match q.remoteBranches with
  | some branches => strIncludes branches.data "origin/develop".data
  | none => false

/-- Spec side: the remote's symbolic default branch, when available. -/
def symbolicDefault (q : GitQueries) : Option String :=
  match q.symbolicRef with
  | some out =>
    if (trimChars out.data).length ≠ 0 then
      some (String.mk
        (replaceFirst (trimChars out.data) "refs/remotes/origin/".data []))
    else none
  | none => none

/-- Spec side: does `origin/<b>` exist on the remote? -/
def branchOnRemote (q : GitQueries) (b : String) : Bool :=
  match q.remoteBranches with
  | some branches => strIncludes branches.data ("origin/" ++ b).data
  | none => false

/-- The integration-branch contract exactly as the spec words it: prefer
`develop` if it exists on the remote; otherwise the remote's symbolic
default branch; otherwise probe for `main`, then `master`, then `develop`
again; otherwise default to `main`. -/
def integrationBranchSpec (q : GitQueries) : String :=
  if developOnRemote q then "develop"
  else
    match symbolicDefault q with
    | some b => b
    | none =>
      if branchOnRemote q "main" then "main"
      else if branchOnRemote q "master" then "master"
      else if branchOnRemote q "develop" then "develop"
      else "main"

/-! ## Helper lemmas -/

theorem trim_length_ne_zero {s : String} (h : trimChars s.data ≠ []) :
    ¬ (trimChars s.data).length = 0 :=
  fun h0 => h (List.length_eq_zero.mp h0)

theorem string_data_append (a b : String) : (a ++ b).data = a.data ++ b.data := by
  cases a
  cases b
  rfl

theorem head?_append_of_head? {α : Type} {l m : List α} {c : α}
    (h : l.head? = some c) : (l ++ m).head? = some c := by
  cases l with
  | nil => simp at h
  | cons x xs => simp_all

theorem ne_of_data_head {a b : String} (h : a.data.head? ≠ b.data.head?) :
    a ≠ b :=
  fun e => h (by rw [e])

/-- The header-length warning decomposed around its numeric interpolation. -/
theorem headerLengthWarning_data (n : Nat) :
    (headerLengthWarning n).data =
      "Header should be 50 characters or less".data ++
      (" (currently ".data ++ ((toString n).data ++ ")".data)) := by
  unfold headerLengthWarning
  rw [string_data_append, string_data_append]
  have h : "Header should be 50 characters or less (currently ".data =
      "Header should be 50 characters or less".data ++ " (currently ".data := by
    decide
  rw [h]
  simp

theorem headerLengthWarning_head (n : Nat) :
    (headerLengthWarning n).data.head? = some 'H' := by
  rw [headerLengthWarning_data]
  apply head?_append_of_head?
  rfl

theorem typeWarning_head (t : String) :
    (typeWarning t).data.head? = some 'T' := by
  unfold typeWarning
  rw [string_data_append, string_data_append, string_data_append]
  apply head?_append_of_head?
  apply head?_append_of_head?
  apply head?_append_of_head?
  rfl

theorem headerLengthWarning_ne_typeWarning (n : Nat) (t : String) :
    headerLengthWarning n ≠ typeWarning t :=
  ne_of_data_head (by rw [headerLengthWarning_head, typeWarning_head]; decide)

theorem headerLengthWarning_ne_subjectLengthWarning (n : Nat) :
    headerLengthWarning n ≠ subjectLengthWarning :=
  ne_of_data_head (by rw [headerLengthWarning_head]; decide)

theorem headerLengthWarning_ne_imperativeWarning (n : Nat) :
    headerLengthWarning n ≠ imperativeWarning :=
  ne_of_data_head (by rw [headerLengthWarning_head]; decide)

theorem headerLengthWarning_ne_bodyLengthWarning (n : Nat) :
    headerLengthWarning n ≠ bodyLengthWarning :=
  ne_of_data_head (by rw [headerLengthWarning_head]; decide)

/-- Membership of the header-length warning in the warnings produced after
the emptiness early return, characterized by the 72-character threshold. -/
theorem headerWarning_mem_iff (header body : List Char) :
    (headerLengthWarning header.length ∈ (validateHeaderBody header body).warnings)
      ↔ 72 < header.length := by
  have h1 := headerLengthWarning_ne_typeWarning header.length
  have h2 := headerLengthWarning_ne_subjectLengthWarning header.length
  have h3 := headerLengthWarning_ne_imperativeWarning header.length
  have h4 := headerLengthWarning_ne_bodyLengthWarning header.length
  unfold validateHeaderBody headerLengthCheck bodyLengthCheck
  cases hp : parseHeader header with
  | none => split_ifs <;> simp_all
  | some p =>
    obtain ⟨ty, subj⟩ := p
    have h1' := h1 (String.mk ty)
    split_ifs <;> simp_all

/-! ## Claim theorems -/

/-- C1: on `"feat: added login"` the code returns `valid = true` with *no*
warnings at all: the imperative-mood regex `/^(add|...)/i` accepts the
subject `"added login"` because `"add"` is a prefix of `"added"`, so the
imperative-mood suggestion the claim (and the code's own comment, `not
"added" but "add"`) promises is never emitted. -/
theorem c1_added_login_gets_no_imperative_warning :
    validateCommitMessage "feat: added login" =
      { valid := true, errors := [], warnings := [] } := by decide

/-- C2 counterexample: the header `": fix typo"` omits the leading type
token yet the claim says it still matches; in fact the pattern's `(\w+)`
is mandatory, so the code emits the format error and `valid = false`. -/
theorem c2_counterexample_missing_type_token :
    ¬ ((validateCommitMessage ": fix typo").errors = [] ∧
       (validateCommitMessage ": fix typo").valid = true) := by decide

/-- C2 (amended): the leading type token of the header is *mandatory*: for
every non-empty message whose header has no leading word character, the
header pattern fails and `validateCommitMessage` produces the format error
with `valid = false`. -/
theorem c2_amended_type_token_mandatory (s : String)
    (h1 : trimChars s.data ≠ [])
    (h2 : (headerOf s).takeWhile isWordChar = []) :
    (validateCommitMessage s).valid = false ∧
    (validateCommitMessage s).errors = [formatError] := by
  have hp : parseHeader (headerOf s) = none := by
    simp [parseHeader, h2]
  unfold validateCommitMessage
  rw [if_neg (trim_length_ne_zero h1)]
  unfold validateHeaderBody
  rw [hp]
  exact ⟨rfl, rfl⟩

/-- C2 witness: the amended theorem applied at `": fix typo"`. -/
theorem c2_amended_witness :
    (validateCommitMessage ": fix typo").valid = false ∧
    (validateCommitMessage ": fix typo").errors = [formatError] :=
  c2_amended_type_token_mandatory ": fix typo" (by decide) (by decide)

/-- C6: every message that trims to the empty string yields exactly the
single empty-message error, `valid = false`, and no warnings. -/
theorem c6_empty_message (s : String) (h : trimChars s.data = []) :
    validateCommitMessage s =
      { valid := false, errors := ["Commit message cannot be empty"],
        warnings := [] } := by
  unfold validateCommitMessage
  rw [if_pos (by rw [h]; rfl)]
  rfl

/-- C6 witness: the theorem applied at `""` (and the hypothesis also holds
for the whitespace-only `"   "`). -/
theorem c6_empty_message_witness :
    trimChars "".data = [] ∧ trimChars "   ".data = [] ∧
    validateCommitMessage "" =
      { valid := false, errors := ["Commit message cannot be empty"],
        warnings := [] } :=
  ⟨rfl, by decide, c6_empty_message "" rfl⟩

/-- C3: for every message whose trimmed value is non-empty and whose header
fails the conventional-commit pattern, the result is exactly the single
format error with `valid = false`, and the warnings are exactly those of the
header-length and body-length checks (no type / subject / imperative-mood
warning can appear). -/
theorem c3_nonmatching_header_single_error (s : String)
    (h1 : trimChars s.data ≠ [])
    (h2 : parseHeader (headerOf s) = none) :
    validateCommitMessage s =
      { valid := false, errors := [formatError],
        warnings :=
          headerLengthCheck (headerOf s) ++ bodyLengthCheck (bodyOf s) } := by
  unfold validateCommitMessage
  rw [if_neg (trim_length_ne_zero h1)]
  unfold validateHeaderBody
  rw [h2]
  rfl

/-- C3 witness: the theorem applied at `"hello world"`. -/
theorem c3_nonmatching_header_witness :
    trimChars "hello world".data ≠ [] ∧
    parseHeader (headerOf "hello world") = none ∧
    validateCommitMessage "hello world" =
      { valid := false, errors := [formatError],
        warnings :=
          headerLengthCheck (headerOf "hello world") ++
          bodyLengthCheck (bodyOf "hello world") } :=
  ⟨by decide, by decide,
   c3_nonmatching_header_single_error "hello world" (by decide) (by decide)⟩

/-- C7: for every message with non-empty trimmed value, the header-length
warning appears among the warnings exactly when the header is strictly
longer than 72 characters, and that warning's text advertises the
50-character guideline (the literal 72-versus-50 asymmetry of the code). -/
theorem c7_header_length_warning_iff (s : String)
    (h1 : trimChars s.data ≠ []) :
    ((headerLengthWarning (headerOf s).length ∈
        (validateCommitMessage s).warnings) ↔ 72 < (headerOf s).length) ∧
    "Header should be 50 characters or less".data.isPrefixOf
      (headerLengthWarning (headerOf s).length).data = true := by
  constructor
  · unfold validateCommitMessage
    rw [if_neg (trim_length_ne_zero h1)]
    exact headerWarning_mem_iff (headerOf s) (bodyOf s)
  · rw [ List.isPrefixOf_iff_prefix, headerLengthWarning_data]
    exact List.prefix_append _ _

/-- C7 witness: the theorem applied at a short header (no warning) — the
iff instantiates to `False ↔ False` there, and the 50-character text fact is
concrete. -/
theorem c7_header_length_warning_witness :
    trimChars "feat: add x".data ≠ [] ∧
    (((headerLengthWarning (headerOf "feat: add x").length ∈
        (validateCommitMessage "feat: add x").warnings) ↔
          72 < (headerOf "feat: add x").length) ∧
     "Header should be 50 characters or less".data.isPrefixOf
       (headerLengthWarning (headerOf "feat: add x").length).data = true) :=
  ⟨by decide, c7_header_length_warning_iff "feat: add x" (by decide)⟩

/-- C8: for every input, `valid` is exactly "the errors list is empty";
warnings never influence the flag. -/
theorem c8_valid_iff_no_errors (s : String) :
    (validateCommitMessage s).valid = (validateCommitMessage s).errors.isEmpty := by
  unfold validateCommitMessage validateHeaderBody
  split
  · rfl
  · split <;> rfl

theorem matchTail_subject_ne_nil {t subj : List Char}
    (h : matchTail t = some subj) : subj ≠ [] := by
  unfold matchTail at h
  dsimp only at h
  split_ifs at h
  · split at h
    · split at h
      · split_ifs at h
        injection h with h
        rw [← h]
        simp
      · exact absurd h (by simp)
    · exact absurd h (by simp)
  next hr _ =>
    injection h with h
    rw [← h]
    intro he
    rw [he] at hr
    simp at hr

theorem parseHeader_subject_ne_nil {h : List Char} {ty subj : List Char}
    (hp : parseHeader h = some (ty, subj)) : subj ≠ [] := by
  unfold parseHeader at hp
  dsimp only at hp
  split_ifs at hp
  split at hp
  · rw [Option.map_eq_some'] at hp
    obtain ⟨a, ha, he⟩ := hp
    cases he
    exact matchTail_subject_ne_nil ha
  · exact absurd hp (by simp)

/-- C10: the errors list never holds more than one element, and the
empty-subject error is unreachable (a matching header always captures a
subject of at least one character). -/
theorem c10_at_most_one_error (s : String) :
    (validateCommitMessage s).errors.length ≤ 1 ∧
    ((validateCommitMessage s).errors.contains "Subject cannot be empty")
      = false := by
  unfold validateCommitMessage
  split
  · exact ⟨by simp, by decide⟩
  · unfold validateHeaderBody
    cases hp : parseHeader (headerOf s) with
    | none => exact ⟨by simp, by rfl⟩
    | some p =>
      obtain ⟨ty, subj⟩ := p
      have hs : subj ≠ [] := parseHeader_subject_ne_nil hp
      have hlen : ¬ subj.length = 0 := fun h0 => hs (List.length_eq_zero.mp h0)
      simp [hlen]

/-- The one JavaScript operation in `validateCommitMessage` that could yield
`undefined` is the index `lines[0]`; this variant models it as a fallible
access, returning `none` where the JavaScript would have produced
`undefined`. -/
def validateCommitMessageOpt (message : String) :
    Option CommitMessageValidation :=
  if (trimChars message.data).length = 0 then
    some { valid := false, errors := [emptyMessageError], warnings := [] }
  else
    match (splitLines (trimChars message.data)).head? with
    | none => none
    | some header =>
      some (validateHeaderBody header
        (joinLines ((splitLines (trimChars message.data)).drop 1)))

theorem splitLines_ne_nil (l : List Char) : splitLines l ≠ [] := by
  induction l with
  | nil => simp [splitLines]
  | cons c rest ih =>
    unfold splitLines
    split
    · simp
    · split <;> simp

/-- C9: totality and well-formedness.  The fallible embedding of
`validateCommitMessage` never fails and agrees with the total one on every
input (so the `lines[0]` access is safe), and `validateBranchName` always
returns a well-formed result: the error message is present exactly when the
name is invalid. -/
theorem c9_total_wellformed (s : String) :
    validateCommitMessageOpt s = some (validateCommitMessage s) ∧
    (validateBranchName s).error.isSome = !(validateBranchName s).valid := by
  constructor
  · unfold validateCommitMessageOpt validateCommitMessage
    split
    · rfl
    · have hne := splitLines_ne_nil (trimChars s.data)
      cases hl : splitLines (trimChars s.data) with
      | nil => exact absurd hl hne
      | cons a as => simp [headerOf, bodyOf, hl]
  · unfold validateBranchName
    split <;> rfl

theorem matchSlugPattern_iff (pfx l : List Char) :
    matchSlugPattern pfx l = true ↔
      ∃ slug, l = pfx ++ slug ∧ slug ≠ [] ∧ ∀ c ∈ slug, isSlugChar c = true := by
  unfold matchSlugPattern
  simp only [Bool.and_eq_true, List.isPrefixOf_iff_prefix, Bool.not_eq_true',
    List.isEmpty_eq_false, List.all_eq_true]
  constructor
  · rintro ⟨⟨⟨t, ht⟩, hne⟩, hall⟩
    have hdrop : l.drop pfx.length = t := by rw [← ht, List.drop_left]
    rw [hdrop] at hne hall
    exact ⟨t, ht.symm, hne, hall⟩
  · rintro ⟨slug, rfl, hne, hall⟩
    rw [List.drop_left]
    exact ⟨⟨⟨slug, rfl⟩, hne⟩, hall⟩

theorem validateBranchName_valid_eq (name : String) :
    (validateBranchName name).valid = branchPatternsMatch name := by
  unfold validateBranchName
  split <;> simp_all

/-- C4: `validateBranchName` accepts exactly the names of the form
`feature/<slug>`, `bugfix/<slug>`, `hotfix/<slug>`, `release/<slug>` (slug =
one or more lowercase alphanumerics / hyphens) and the literals `main` and
`develop`; in particular `feature/add-logging`, `main` and `develop` are
valid, and `Feature/AddLogging` is not (uppercase breaks the slug). -/
theorem c4_validateBranchName_characterization :
    (∀ name : String,
      (validateBranchName name).valid = true ↔
        ((∃ slug : List Char, name.data = "feature/".data ++ slug ∧
            slug ≠ [] ∧ ∀ c ∈ slug, isSlugChar c = true) ∨
         (∃ slug : List Char, name.data = "bugfix/".data ++ slug ∧
            slug ≠ [] ∧ ∀ c ∈ slug, isSlugChar c = true) ∨
         (∃ slug : List Char, name.data = "hotfix/".data ++ slug ∧
            slug ≠ [] ∧ ∀ c ∈ slug, isSlugChar c = true) ∨
         (∃ slug : List Char, name.data = "release/".data ++ slug ∧
            slug ≠ [] ∧ ∀ c ∈ slug, isSlugChar c = true) ∨
         name = "main" ∨ name = "develop")) ∧
    (validateBranchName "feature/add-logging").valid = true ∧
    (validateBranchName "main").valid = true ∧
    (validateBranchName "develop").valid = true ∧
    (validateBranchName "Feature/AddLogging").valid = false := by
  refine ⟨fun name => ?_, by decide, by decide, by decide, by decide⟩
  rw [validateBranchName_valid_eq]
  unfold branchPatternsMatch
  simp only [Bool.or_eq_true, matchSlugPattern_iff, beq_iff_eq, or_assoc]

/-- C5: viewed as a pure decision function over the externally supplied
Git-query results, `getIntegrationBranch` computes exactly the contract the
spec words: `develop` when `origin/develop` exists on the remote, otherwise
the remote's symbolic default branch when available, otherwise `main` /
`master` / `develop` by existence probing, defaulting to `main`. -/
theorem c5_getIntegrationBranch_matches_spec (q : GitQueries) :
    getIntegrationBranch q = integrationBranchSpec q := by
  obtain ⟨rb, sr⟩ := q
  have e1 : ("origin/" ++ "main" : String).data = "origin/main".data := by decide
  have e2 : ("origin/" ++ "master" : String).data = "origin/master".data := by
    decide
  have e3 : ("origin/" ++ "develop" : String).data = "origin/develop".data := by
    decide
  cases rb <;> cases sr <;>
    simp only [getIntegrationBranch, integrationBranchSpec, developOnRemote,
      symbolicDefault, branchOnRemote, detectDefaultBranch,
      probeRemoteBranches, string_data_append, e1, e2, e3] <;>
    split_ifs <;> simp_all

end GitWorkflows
